import Mathlib

/-!
Shallow embedding of the Suno music-generation client:

* `src/services/sunoApi.ts` — the remote-service wrapper (`SunoApiService`):
  every public operation funnels through `makeRequest`, which resolves to a
  `SunoApiResponse` carrying either a `data` field or an `error` field.
* `src/hooks/useSunoGeneration` (file `src/unnamed/part_000`) — the generation
  lifecycle manager and local track cache: submit (`generateMusic` /
  `extendTrack`), the polling step (`pollForCompletion`), cancellation
  (`cancelGeneration`), and the AsyncStorage-backed cache
  (`getCachedTrack`, `cacheTrack`, `refreshCachedTracks`).

JS numbers carried by the state (`progress`) are modelled as `ℚ`; timestamps
(`Date.getTime()` milliseconds) as `Int`.  Payload fields of the remote track
records that no verified property touches (video/image urls, play counts,
model metadata, …) are elided; the fields the code branches on (`id`,
`status`, `cached_at`, …) are kept with their source names.
-/

/-! ## Data model (`src/types/suno.ts`) -/

inductive TrackStatus
  | submitted
  | queued
  | streaming
  | complete
  | error
  deriving DecidableEq, Repr

/-- One generated (or in-progress) audio artifact. -/
structure SunoTrack where
  id : String
  title : String
  audio_url : Option String
  status : TrackStatus
  deriving DecidableEq, Repr

/-- A track as persisted by the local cache: the track's fields plus
`cached_at` (write timestamp) and a locally generated surrogate `local_id`. -/
structure CachedTrack where
  id : String
  title : String
  audio_url : Option String
  status : TrackStatus
  cached_at : Int
  local_id : String
  deriving DecidableEq, Repr

/-- Result of a submit call: a generation id and the clip batch
(metadata fields not consulted by the client are elided). -/
structure GenerationResponse where
  id : String
  clips : List SunoTrack
  deriving DecidableEq, Repr

structure LyricsResponse where
  id : String
  text : String
  title : String
  deriving DecidableEq, Repr

structure SunoApiError where
  error : String
  message : String
  status : Option Nat
  deriving DecidableEq, Repr

/-- `SunoApiResponse<T> = { data?: T; error?: SunoApiError }`. -/
structure SunoApiResponse (T : Type) where
  data : Option T := none
  error : Option SunoApiError := none
  deriving DecidableEq, Repr

/-- A response carries either a `data` field or an `error` field
(exactly one of the two is populated). -/
def SunoApiResponse.resolved {T : Type} (r : SunoApiResponse T) : Prop :=
  (r.data.isSome = true ∧ r.error = none) ∨ (r.data = none ∧ r.error.isSome = true)

/-! ## Remote-service wrapper (`src/services/sunoApi.ts`)

A transport attempt, as seen from inside `makeRequest`'s `try` block, ends in
one of three ways: the `fetch` (or `response.json()`) promise rejects, the
response is non-2xx, or a 2xx response parses to a body.  `makeRequest` maps
each of these — plus the missing-api-key fast path — to a `SunoApiResponse`. -/

inductive TransportOutcome (T : Type)
  | reject (msg : String)
  | respErr (status : Nat) (msg : String)
  | respOk (body : T)
  deriving DecidableEq, Repr

namespace SunoApi

def noApiKeyMessage : String :=
  "Suno API key is not configured. Please set EXPO_PUBLIC_SUNO_API_KEY environment variable or call setApiKey()."

/-- `SunoApiService.makeRequest`: missing key fails fast with a configuration
error; a rejected promise is caught and mapped to `NETWORK_ERROR`; a non-2xx
response to `API_ERROR`; a 2xx response to `{ data: responseData }`. -/
def makeRequest {T : Type} (apiKey : Option String) (outcome : TransportOutcome T) :
    SunoApiResponse T :=
  match apiKey with
  | none => { error := some { error := "NO_API_KEY", message := noApiKeyMessage, status := none } }
  | some _ =>
    match outcome with
    | .reject msg =>
        { error := some { error := "NETWORK_ERROR", message := msg, status := none } }
    | .respErr status msg =>
        { error := some { error := "API_ERROR", message := msg, status := some status } }
    | .respOk body => { data := some body }

def generateMusic (apiKey : Option String) (_prompt : String)
    (outcome : TransportOutcome GenerationResponse) : SunoApiResponse GenerationResponse :=
  makeRequest apiKey outcome

def getTrack (apiKey : Option String) (_trackId : String)
    (outcome : TransportOutcome (List SunoTrack)) : SunoApiResponse (List SunoTrack) :=
  makeRequest apiKey outcome

def getTracks (apiKey : Option String) (_trackIds : List String)
    (outcome : TransportOutcome (List SunoTrack)) : SunoApiResponse (List SunoTrack) :=
  makeRequest apiKey outcome

def extendTrack (apiKey : Option String) (_trackId _prompt : String)
    (outcome : TransportOutcome GenerationResponse) : SunoApiResponse GenerationResponse :=
  makeRequest apiKey outcome

def generateLyrics (apiKey : Option String) (_prompt : String)
    (outcome : TransportOutcome LyricsResponse) : SunoApiResponse LyricsResponse :=
  makeRequest apiKey outcome

def cancelGeneration (apiKey : Option String) (_generationId : String)
    {T : Type} (outcome : TransportOutcome T) : SunoApiResponse T :=
  makeRequest apiKey outcome

def getQuota (apiKey : Option String) {T : Type} (outcome : TransportOutcome T) :
    SunoApiResponse T :=
  makeRequest apiKey outcome

def getGenerationHistory (apiKey : Option String) (_limit _offset : Nat)
    (outcome : TransportOutcome (List SunoTrack)) : SunoApiResponse (List SunoTrack) :=
  makeRequest apiKey outcome

/-- A track is terminal when its status is `complete` or `error`
(`t.status === 'complete' || t.status === 'error'`). -/
def isTerminal (t : SunoTrack) : Bool :=
  t.status == .complete || t.status == .error

/-- `pollTrackCompletion`'s `for` loop: `remaining` counts the attempts left
(`maxAttempts - attempt`); `outcomes attempt` is the transport outcome of the
`getTracks` call of that iteration. -/
def pollTrackCompletionAux (apiKey : Option String)
    (outcomes : Nat → TransportOutcome (List SunoTrack)) :
    Nat → Nat → SunoApiResponse (List SunoTrack)
  | _, 0 =>
      { error := some
          { error := "POLLING_TIMEOUT"
            message := "Tracks did not complete within the expected time frame"
            status := none } }
  | attempt, remaining + 1 =>
      let response := getTracks apiKey [] (outcomes attempt)
      match response.error with
      | some _ => response
      | none =>
        let tracks := response.data.getD []
        if tracks.all isTerminal then response
        else pollTrackCompletionAux apiKey outcomes (attempt + 1) remaining

def pollTrackCompletion (apiKey : Option String)
    (outcomes : Nat → TransportOutcome (List SunoTrack)) (maxAttempts : Nat) :
    SunoApiResponse (List SunoTrack) :=
  pollTrackCompletionAux apiKey outcomes 0 maxAttempts

end SunoApi

/-! ## Generation lifecycle manager (`useSunoGeneration`, `src/unnamed/part_000`)

The hook's react state is gathered into one record; each operation of the hook
becomes a function from the current state (plus the resolved value of the one
remote call it awaits) to the next state.  Effects besides `setState` — whether
the step performed the `getTracks` fetch, whether it scheduled the next poll
timer, and which tracks it wrote to the cache — are returned alongside. -/

inductive SunoGenerationStatus
  | idle
  | generating
  | polling
  | completed
  | error
  deriving DecidableEq, Repr

structure HookState where
  status : SunoGenerationStatus
  progress : ℚ
  tracks : List SunoTrack
  error : Option String
  generationId : Option String
  pollAttempts : Nat
  deriving DecidableEq, Repr

/-- The state a freshly mounted hook starts from. -/
def initialHookState : HookState :=
  { status := .idle, progress := 0, tracks := [], error := none
    generationId := none, pollAttempts := 0 }

/-- What one run of `pollForCompletion`'s body did. -/
structure PollResult where
  state : HookState
  didFetch : Bool
  schedulesNext : Bool
  cached : List SunoTrack
  deriving DecidableEq, Repr

def timeoutMessage : String := "Generation timed out. Please try again."

/-- Fallback message of `pollForCompletion`'s `catch` branch. -/
def pollingFailedMessage : String := "Polling failed"

/-- One run of `pollForCompletion`'s body, from `src/unnamed/part_000:180-234`:
attempt budget exhausted → timeout error before any fetch; fetch error → error
state; otherwise the track list is replaced, progress is recalculated as
`min((terminalCount / total) * 100, 100)`, and either every track is terminal
(status `completed`, progress forced to 100, the `complete` tracks written to
the cache) or the attempt counter is bumped and the next poll is scheduled.
(For an empty batch the source's intermediate `setProgress` writes JS `NaN`
where this model writes 0, but `[].every(..) = true` so both are immediately
overwritten by the terminal `setProgress(100)`.)  -/
def pollForCompletion (maxPollAttempts : Nat) (s : HookState)
    (response : SunoApiResponse (List SunoTrack)) : PollResult :=
  if maxPollAttempts ≤ s.pollAttempts then
    { state := { s with error := some timeoutMessage, status := .error }
      didFetch := false, schedulesNext := false, cached := [] }
  else
    match response.error with
    | some e =>
        { state := { s with error := some e.message, status := .error }
          didFetch := true, schedulesNext := false, cached := [] }
    | none =>
        let updatedTracks := response.data.getD []
        let completedCount := (updatedTracks.filter SunoApi.isTerminal).length
        let newProgress : ℚ := min ((completedCount : ℚ) / (updatedTracks.length : ℚ) * 100) 100
        if updatedTracks.all SunoApi.isTerminal then
          { state := { s with tracks := updatedTracks, progress := 100, status := .completed }
            didFetch := true, schedulesNext := false
            cached := updatedTracks.filter fun t => t.status == .complete }
        else
          { state := { s with tracks := updatedTracks, progress := newProgress
                              pollAttempts := s.pollAttempts + 1 }
            didFetch := true, schedulesNext := true, cached := [] }

/-- The synchronous head of `generateMusic` (`src/unnamed/part_000:242-246`):
status `generating`, error cleared, progress 0, track list cleared, poll
attempt counter reset. -/
def generateMusicReset (s : HookState) : HookState :=
  { s with status := .generating, error := none, progress := 0
           tracks := [], pollAttempts := 0 }

/-- The synchronous head of `extendTrack` (`src/unnamed/part_000:287-289`):
status `generating`, error cleared, progress 0 — and nothing else. -/
def extendTrackReset (s : HookState) : HookState :=
  { s with status := .generating, error := none, progress := 0 }

/-- `generateMusic` up to the point where it either enters `polling` or lands
in `error` (`src/unnamed/part_000:241-272`). -/
def generateMusic (s : HookState) (response : SunoApiResponse GenerationResponse) :
    HookState :=
  let s0 := generateMusicReset s
  match response.error with
  | some e => { s0 with error := some e.message, status := .error }
  | none =>
    match response.data with
    | none => { s0 with error := some "No generation data received", status := .error }
    | some generation =>
        { s0 with generationId := some generation.id, tracks := generation.clips
                  status := .polling, progress := 10 }

/-- `extendTrack` up to the point where it either enters `polling` or lands in
`error` (`src/unnamed/part_000:281-314`). -/
def extendTrack (s : HookState) (response : SunoApiResponse GenerationResponse) :
    HookState :=
  let s0 := extendTrackReset s
  match response.error with
  | some e => { s0 with error := some e.message, status := .error }
  | none =>
    match response.data with
    | none => { s0 with error := some "No extension data received", status := .error }
    | some extension =>
        { s0 with generationId := some extension.id, tracks := extension.clips
                  status := .polling, progress := 10 }

/-- `cancelGeneration` (`src/unnamed/part_000:369-386`): clears the pending
poll timer, best-effort notifies the remote service, then resets status,
progress and generation id.  `tracks`, `error` and the attempt counter are
left as they were. -/
def cancelGeneration (s : HookState) : HookState :=
  { s with status := .idle, progress := 0, generationId := none }

/-! ## Local track cache (`src/unnamed/part_000:78-177, 340-366`)

The AsyncStorage backing store is modelled as an association list from keys to
stored values; a stored value is either JSON that parses to a `CachedTrack` or
text `JSON.parse` throws on.  (`multiGet` may also pair a key with `null`,
which `refreshCachedTracks` skips without deleting.)  Storage side effects of
an operation are reported as a list of `CacheAccess` events; `remoteFetch`
marks a call into the remote service wrapper. -/

inductive StoreValue
  | nullValue
  | badJson
  | okValue (c : CachedTrack)
  deriving DecidableEq, Repr

inductive CacheAccess
  | storeGetItem (key : String)
  | storeRemoveItem (key : String)
  | storeSetItem (key : String)
  | remoteFetch
  deriving DecidableEq, Repr

def CACHE_EXPIRY_HOURS : Int := 24

def getCacheKey (trackId : String) : String := "suno_track_" ++ trackId

/-- `isCacheExpired`: `new Date() > new Date(cachedAt + 24h)`. -/
def isCacheExpired (now cachedAt : Int) : Bool :=
  decide (cachedAt + CACHE_EXPIRY_HOURS * 60 * 60 * 1000 < now)

/-- `getCachedTrack(trackId)`: read the stored entry; absent → `null`;
unparseable → the `catch` returns `null` (without deleting); expired →
delete and return `null`; otherwise return the entry.  The only effects are
AsyncStorage accesses — the remote service is never called. -/
def getCachedTrack (now : Int) (trackId : String) (stored : StoreValue) :
    Option CachedTrack × List CacheAccess :=
  match stored with
  | .nullValue => (none, [.storeGetItem (getCacheKey trackId)])
  | .badJson => (none, [.storeGetItem (getCacheKey trackId)])
  | .okValue cachedTrack =>
      if isCacheExpired now cachedTrack.cached_at then
        (none, [.storeGetItem (getCacheKey trackId), .storeRemoveItem (getCacheKey trackId)])
      else
        (some cachedTrack, [.storeGetItem (getCacheKey trackId)])

/-- The `CachedTrack` record `cacheTrack` builds from a track:
`{...track, cached_at: now, local_id: ...}`. -/
def mkCachedTrack (now : Int) (localId : String) (track : SunoTrack) : CachedTrack :=
  { id := track.id, title := track.title, audio_url := track.audio_url
    status := track.status, cached_at := now, local_id := localId }

/-- `cacheTrack`'s update of the in-memory `cachedTracks` list:
`[cachedTrack, ...prev.filter(t => t.id !== track.id)].slice(0, maxCachedTracks)`. -/
def cacheTrack (now : Int) (localId : String) (track : SunoTrack)
    (maxCachedTracks : Nat) (prev : List CachedTrack) : List CachedTrack :=
  (mkCachedTrack now localId track :: prev.filter fun t => t.id != track.id).take
    maxCachedTracks

/-- The order `refreshCachedTracks` sorts by:
`(a, b) => new Date(b.cached_at).getTime() - new Date(a.cached_at).getTime()`,
i.e. newest `cached_at` first. -/
def byNewest (a b : CachedTrack) : Prop := b.cached_at ≤ a.cached_at

instance : DecidableRel byNewest := fun a b => Int.decLe b.cached_at a.cached_at

instance : IsTotal CachedTrack byNewest :=
  ⟨fun a b => (le_total b.cached_at a.cached_at).elim Or.inl Or.inr⟩

instance : IsTrans CachedTrack byNewest :=
  ⟨fun _ _ _ h1 h2 => le_trans h2 h1⟩

/-- The loop of `refreshCachedTracks` (`src/unnamed/part_000:149-166`): walk
the stored items, keep the parseable unexpired ones, delete (and skip) the
expired and the unparseable, skip `null` values.  Returns the kept tracks in
store order and the keys removed. -/
def refreshScan (now : Int) : List (String × StoreValue) → List CachedTrack × List String
  | [] => ([], [])
  | (key, v) :: rest =>
      let r := refreshScan now rest
      match v with
      | .nullValue => r
      | .badJson => (r.1, key :: r.2)
      | .okValue cachedTrack =>
          if isCacheExpired now cachedTrack.cached_at then (r.1, key :: r.2)
          else (cachedTrack :: r.1, r.2)

/-- `refreshCachedTracks`: scan the whole backing store, sort the surviving
entries newest-`cached_at`-first and truncate to `maxCachedTracks`.  Returns
the new `cachedTracks` list and the deleted keys. -/
def refreshCachedTracks (now : Int) (maxCachedTracks : Nat)
    (store : List (String × StoreValue)) : List CachedTrack × List String :=
  let r := refreshScan now store
  ((r.1.insertionSort byNewest).take maxCachedTracks, r.2)

/-- The hook's `getTrack(trackId)` (`src/unnamed/part_000:340-366`), given the
result of the cache lookup and, when that missed, the resolved remote
response.  Returns the track handed back to the caller and the track written
to the cache (`none` when no `cacheTrack` call happened). -/
def hookGetTrack (trackId : String) (cached : Option CachedTrack)
    (response : SunoApiResponse (List SunoTrack)) : Option SunoTrack × Option SunoTrack :=
  match cached with
  | some c => (some { id := c.id, title := c.title, audio_url := c.audio_url
                      status := c.status }, none)
  | none =>
    match response.error with
    | some _ => (none, none)
    | none =>
      let tracks := response.data.getD []
      match tracks.find? fun t => t.id == trackId with
      | some track =>
          if track.status == .complete then (some track, some track)
          else (some track, none)
      | none => (none, none)


/-! ## Concrete fixtures used by closed-theorem evaluations -/

def tQueued1 : SunoTrack :=
  { id := "t1", title := "Song A", audio_url := none, status := .queued }

def tQueued2 : SunoTrack :=
  { id := "t2", title := "Song B", audio_url := none, status := .queued }

def tComplete1 : SunoTrack :=
  { id := "t1", title := "Song A", audio_url := some "https://cdn.example/a.mp3"
    status := .complete }

def tError2 : SunoTrack :=
  { id := "t2", title := "Song B", audio_url := none, status := .error }

/-- A successful submit: generation `gen-1` with two queued clips. -/
def submitResponse : SunoApiResponse GenerationResponse :=
  { data := some { id := "gen-1", clips := [tQueued1, tQueued2] } }

/-- A successful submit whose generation carries an empty clip batch. -/
def emptyClipsResponse : SunoApiResponse GenerationResponse :=
  { data := some { id := "gen-empty", clips := [] } }

/-- A poll response with both tracks still streaming (0 of 2 terminal). -/
def pollStreamingResponse : SunoApiResponse (List SunoTrack) :=
  { data := some [{ tQueued1 with status := .streaming },
                  { tQueued2 with status := .streaming }] }

/-- A poll response with both tracks terminal: one `complete`, one `error`. -/
def pollTerminalResponse : SunoApiResponse (List SunoTrack) :=
  { data := some [tComplete1, tError2] }

/-- Mid-generation state: polling, progress 10, three attempts used. -/
def pollingState : HookState :=
  { status := .polling, progress := 10, tracks := [tQueued1, tQueued2]
    error := none, generationId := some "gen-1", pollAttempts := 3 }

/-- Polling state whose attempt counter has reached the default budget of 60. -/
def timedOutState : HookState :=
  { status := .polling, progress := 10, tracks := [tQueued1, tQueued2]
    error := none, generationId := some "gen-1", pollAttempts := 60 }

/-- A finished-generation state with leftovers a new submit must clear. -/
def staleState : HookState :=
  { status := .completed, progress := 100, tracks := [tComplete1, tError2]
    error := some "old failure", generationId := some "gen-0", pollAttempts := 5 }

def cachedA : CachedTrack :=
  { id := "a", title := "Old", audio_url := some "https://cdn.example/old.mp3"
    status := .complete, cached_at := 800, local_id := "local-a" }

def cachedB : CachedTrack :=
  { id := "b", title := "Newer", audio_url := some "https://cdn.example/new.mp3"
    status := .complete, cached_at := 900, local_id := "local-b" }

/-- A full (`maxCachedTracks = 2`) in-memory cache list, newest first. -/
def prevW : List CachedTrack := [cachedB, cachedA]

def trackNew : SunoTrack :=
  { id := "n", title := "Fresh", audio_url := some "https://cdn.example/n.mp3"
    status := .complete }

/-- A backing store holding one fresh entry, one expired entry and one
unparseable entry. -/
def storeW : List (String × StoreValue) :=
  [(getCacheKey "a", .okValue cachedA),
   (getCacheKey "x", .okValue { cachedA with id := "x", cached_at := -100000000 }),
   (getCacheKey "bad", .badJson)]

/-! ## Theorems -/

lemma makeRequest_resolved {T : Type} (apiKey : Option String)
    (outcome : TransportOutcome T) : (SunoApi.makeRequest apiKey outcome).resolved := by
  cases apiKey with
  | none => exact Or.inr ⟨rfl, rfl⟩
  | some k => cases outcome with
    | reject msg => exact Or.inr ⟨rfl, rfl⟩
    | respErr s msg => exact Or.inr ⟨rfl, rfl⟩
    | respOk body => exact Or.inl ⟨rfl, rfl⟩

lemma pollTrackCompletionAux_resolved (apiKey : Option String)
    (outcomes : Nat → TransportOutcome (List SunoTrack)) :
    ∀ remaining attempt,
      (SunoApi.pollTrackCompletionAux apiKey outcomes attempt remaining).resolved := by
  intro remaining
  induction remaining with
  | zero => intro attempt; exact Or.inr ⟨rfl, rfl⟩
  | succ n ih =>
    intro attempt
    simp only [SunoApi.pollTrackCompletionAux]
    rcases h : (SunoApi.getTracks apiKey [] (outcomes attempt)).error with _ | e
    · rcases ht : (SunoApi.getTracks apiKey [] (outcomes attempt)).data.getD [] |>.all
        SunoApi.isTerminal with _ | _
      · simpa [h, ht] using ih (attempt + 1)
      · have hr := makeRequest_resolved apiKey (outcomes attempt)
        simpa [h, ht, SunoApi.getTracks] using hr
    · have hr := makeRequest_resolved apiKey (outcomes attempt)
      simpa [h, SunoApi.getTracks] using hr

/-- C10: every public operation of the remote-service wrapper is total and,
for every input and transport outcome (missing key, rejected fetch, non-2xx
response, successful response), resolves to a `SunoApiResponse` carrying
either a `data` field or an `error` field — it never throws to the caller. -/
theorem sunoApi_operations_resolve :
    (∀ (k : Option String) (p : String) (o : TransportOutcome GenerationResponse),
        (SunoApi.generateMusic k p o).resolved)
    ∧ (∀ (k : Option String) (t : String) (o : TransportOutcome (List SunoTrack)),
        (SunoApi.getTrack k t o).resolved)
    ∧ (∀ (k : Option String) (ts : List String) (o : TransportOutcome (List SunoTrack)),
        (SunoApi.getTracks k ts o).resolved)
    ∧ (∀ (k : Option String) (t p : String) (o : TransportOutcome GenerationResponse),
        (SunoApi.extendTrack k t p o).resolved)
    ∧ (∀ (k : Option String) (p : String) (o : TransportOutcome LyricsResponse),
        (SunoApi.generateLyrics k p o).resolved)
    ∧ (∀ (k : Option String) (os : Nat → TransportOutcome (List SunoTrack)) (m : Nat),
        (SunoApi.pollTrackCompletion k os m).resolved)
    ∧ (∀ (k : Option String) (g : String) (o : TransportOutcome Unit),
        (SunoApi.cancelGeneration k g o).resolved)
    ∧ (∀ (k : Option String) (o : TransportOutcome Int),
        (SunoApi.getQuota k o).resolved)
    ∧ (∀ (k : Option String) (lim off : Nat) (o : TransportOutcome (List SunoTrack)),
        (SunoApi.getGenerationHistory k lim off o).resolved) :=
  ⟨fun k _ o => makeRequest_resolved k o,
   fun k _ o => makeRequest_resolved k o,
   fun k _ o => makeRequest_resolved k o,
   fun k _ _ o => makeRequest_resolved k o,
   fun k _ o => makeRequest_resolved k o,
   fun k os m => pollTrackCompletionAux_resolved k os m 0,
   fun k _ o => makeRequest_resolved k o,
   fun k o => makeRequest_resolved k o,
   fun k _ _ o => makeRequest_resolved k o⟩

/-- C1 (evaluation at the failing input): after a successful submit the
progress is 10, yet the very first poll — both tracks still streaming, so 0 of
2 terminal — recalculates progress as `min((0/2)*100, 100) = 0`: the polling
sequence drops progress from 10 to 0, below the initial 10, while the status
stays `polling`.  The claimed monotonicity fails on the code (the
spec's §9 design note itself flags this drop as unintended). -/
theorem progress_drops_on_first_poll :
    (generateMusic initialHookState submitResponse).progress = 10
    ∧ (pollForCompletion 60 (generateMusic initialHookState submitResponse)
        pollStreamingResponse).state.progress = 0
    ∧ (pollForCompletion 60 (generateMusic initialHookState submitResponse)
        pollStreamingResponse).state.status = .polling
    ∧ (pollForCompletion 60 (generateMusic initialHookState submitResponse)
        pollStreamingResponse).state.progress
        < (generateMusic initialHookState submitResponse).progress := by
  refine ⟨rfl, ?_, ?_, ?_⟩ <;>
    simp [pollForCompletion, generateMusic, generateMusicReset, initialHookState,
      submitResponse, pollStreamingResponse, tQueued1, tQueued2, SunoApi.isTerminal]

/-- C2 (evaluation at the failing input): `cancelGeneration` resets the state
to `idle`, but when the body of `pollForCompletion` later runs with the
response of a `getTracks` request that was already in flight, it applies that
stale response unconditionally — there is no generation-id check anywhere in
the hook — transitioning the cancelled generation to `completed`, progress
100, and even writing its `complete` track to the cache. -/
theorem stale_response_applied_after_cancel :
    (cancelGeneration pollingState).status = .idle
    ∧ (cancelGeneration pollingState).progress = 0
    ∧ (pollForCompletion 60 (cancelGeneration pollingState)
        pollTerminalResponse).state.status = .completed
    ∧ (pollForCompletion 60 (cancelGeneration pollingState)
        pollTerminalResponse).state.progress = 100
    ∧ (pollForCompletion 60 (cancelGeneration pollingState)
        pollTerminalResponse).cached = [tComplete1] := by
  refine ⟨rfl, rfl, ?_, ?_, ?_⟩ <;>
    simp [pollForCompletion, cancelGeneration, pollingState, pollTerminalResponse,
      tComplete1, tError2, tQueued1, tQueued2, SunoApi.isTerminal]

/-- C4 counterexample: starting `extendTrack` from a state with 5 used poll
attempts and a leftover track list does **not** reset the poll-attempt counter
to 0, nor clear the track list — refuting, for `extendTrack`, the claim that
every new submit resets both. -/
theorem extendTrack_reset_counterexample :
    ¬ ((extendTrackReset staleState).pollAttempts = 0
        ∧ (extendTrackReset staleState).tracks = []) := by
  decide

/-- C4 amended: `generateMusic` begins by setting status `generating`,
resetting progress to 0, clearing the prior error and track list, and
resetting the poll-attempt counter to 0; `extendTrack` begins by setting
status `generating`, resetting progress to 0 and clearing the prior error,
but leaves the track list and the poll-attempt counter untouched — so the
attempt-count timeout budget does *not* restart at an `extendTrack` call. -/
theorem submit_reset_fields (s : HookState) :
    (generateMusicReset s).status = .generating
    ∧ (generateMusicReset s).progress = 0
    ∧ (generateMusicReset s).error = none
    ∧ (generateMusicReset s).tracks = []
    ∧ (generateMusicReset s).pollAttempts = 0
    ∧ (extendTrackReset s).status = .generating
    ∧ (extendTrackReset s).progress = 0
    ∧ (extendTrackReset s).error = none
    ∧ (extendTrackReset s).tracks = s.tracks
    ∧ (extendTrackReset s).pollAttempts = s.pollAttempts :=
  ⟨rfl, rfl, rfl, rfl, rfl, rfl, rfl, rfl, rfl, rfl⟩

/-- C5: once the poll-attempt counter has reached the configured maximum, the
poll body transitions to `error` carrying the timeout-specific message — a
fixed string different from the generic poll-request-failure fallback — and
performs no remote fetch and schedules no further poll (so no further remote
fetch happens for that generation), and caches nothing. -/
theorem poll_timeout_transition (maxPollAttempts : Nat) (s : HookState)
    (response : SunoApiResponse (List SunoTrack))
    (h : maxPollAttempts ≤ s.pollAttempts) :
    (pollForCompletion maxPollAttempts s response).state.status = .error
    ∧ (pollForCompletion maxPollAttempts s response).state.error = some timeoutMessage
    ∧ (pollForCompletion maxPollAttempts s response).didFetch = false
    ∧ (pollForCompletion maxPollAttempts s response).schedulesNext = false
    ∧ (pollForCompletion maxPollAttempts s response).cached = []
    ∧ timeoutMessage ≠ pollingFailedMessage := by
  rw [pollForCompletion, if_pos h]
  exact ⟨rfl, rfl, rfl, rfl, rfl, by decide⟩

/-- C5 witness: the timeout transition evaluated at the default budget of 60,
exactly exhausted. -/
theorem poll_timeout_transition_witness :
    (pollForCompletion 60 timedOutState pollStreamingResponse).state.status = .error
    ∧ (pollForCompletion 60 timedOutState pollStreamingResponse).state.error
        = some timeoutMessage
    ∧ (pollForCompletion 60 timedOutState pollStreamingResponse).didFetch = false
    ∧ (pollForCompletion 60 timedOutState pollStreamingResponse).schedulesNext = false
    ∧ (pollForCompletion 60 timedOutState pollStreamingResponse).cached = []
    ∧ timeoutMessage ≠ pollingFailedMessage :=
  poll_timeout_transition 60 timedOutState pollStreamingResponse (by decide)

/-- C6 counterexample: a successful submit whose generation carries an empty
clip batch still moves the manager to `polling` with progress 10 — refuting
"`polling` is entered only when the returned Generation has a non-empty track
id set". -/
theorem polling_entered_with_empty_batch :
    ¬ ((generateMusic initialHookState emptyClipsResponse).status = .polling
        → (generateMusic initialHookState emptyClipsResponse).tracks ≠ []) := by
  decide

/-- C6 amended: after a submit call the manager enters `polling` exactly when
the call resolves with no error and a present Generation (the clip list may be
empty); on entering `polling`, progress is 10 and the generation id and track
list are taken from the response.  An error response, and a response with no
data, each land in `error` instead of `polling`. -/
theorem generateMusic_polling_iff (s : HookState)
    (response : SunoApiResponse GenerationResponse) :
    ((generateMusic s response).status = .polling
        ↔ response.error = none ∧ response.data.isSome = true)
    ∧ ((generateMusic s response).status = .polling
        → (generateMusic s response).progress = 10)
    ∧ (∀ e, response.error = some e
        → (generateMusic s response).status = .error
          ∧ (generateMusic s response).error = some e.message)
    ∧ (response.error = none → response.data = none
        → (generateMusic s response).status = .error
          ∧ (generateMusic s response).error = some "No generation data received")
    ∧ (∀ g, response.error = none → response.data = some g
        → (generateMusic s response).tracks = g.clips
          ∧ (generateMusic s response).generationId = some g.id) := by
  obtain ⟨d, e⟩ := response
  cases e with
  | some err => simp [generateMusic]
  | none => cases d with
    | none => simp [generateMusic]
    | some g => simp [generateMusic]

/-- C3: a track is written to the cache only if its status was observed as
`complete` — on polling completion exactly the `complete` tracks of the batch
are cached (so tracks ending in `error` never are), no non-terminal poll cycle
caches anything, and `getTrack` writes a remotely fetched track to the cache
exactly when its status is `complete`. -/
theorem track_cached_iff_complete :
    (∀ (m : Nat) (s : HookState) (resp : SunoApiResponse (List SunoTrack)),
        (∀ t ∈ (pollForCompletion m s resp).cached, t.status = .complete)
        ∧ (s.pollAttempts < m → resp.error = none
            → ((resp.data.getD []).all SunoApi.isTerminal) = true
            → (pollForCompletion m s resp).cached
                = (resp.data.getD []).filter (fun t => t.status == .complete))
        ∧ (((resp.data.getD []).all SunoApi.isTerminal) = false
            → (pollForCompletion m s resp).cached = []))
    ∧ (∀ (trackId : String) (cached : Option CachedTrack)
          (resp : SunoApiResponse (List SunoTrack)) (t : SunoTrack),
        ((hookGetTrack trackId cached resp).2 = some t → t.status = .complete)
        ∧ (cached = none → resp.error = none
            → (resp.data.getD []).find? (fun x => x.id == trackId) = some t
            → t.status = .complete
            → (hookGetTrack trackId cached resp).2 = some t)) := by
  constructor
  · intro m s resp
    by_cases hm : m ≤ s.pollAttempts
    · have hc : (pollForCompletion m s resp).cached = [] := by
        simp [pollForCompletion, hm]
      exact ⟨by simp [hc], fun hlt _ _ => absurd hlt (by omega), fun _ => hc⟩
    · cases herr : resp.error with
      | some e =>
        have hc : (pollForCompletion m s resp).cached = [] := by
          simp [pollForCompletion, hm, herr]
        exact ⟨by simp [hc], fun _ h2 _ => by simp [herr] at h2, fun _ => hc⟩
      | none =>
        by_cases hall : ((resp.data.getD []).all SunoApi.isTerminal) = true
        · have hc : (pollForCompletion m s resp).cached
              = (resp.data.getD []).filter (fun t => t.status == .complete) := by
            simp [pollForCompletion, hm, herr, hall]
          refine ⟨?_, fun _ _ _ => hc, fun hf => absurd hall (by simp [hf])⟩
          intro t ht
          rw [hc] at ht
          simpa using (List.mem_filter.mp ht).2
        · have hc : (pollForCompletion m s resp).cached = [] := by
            simp [pollForCompletion, hm, herr, hall]
          exact ⟨by simp [hc], fun _ _ h3 => absurd h3 hall,
            fun _ => hc⟩
  · intro trackId cached resp t
    constructor
    · intro hw
      cases cached with
      | some c => simp [hookGetTrack] at hw
      | none =>
        cases herr : resp.error with
        | some e => simp [hookGetTrack, herr] at hw
        | none =>
          cases hfind : (resp.data.getD []).find? (fun x => x.id == trackId) with
          | none => simp [hookGetTrack, herr, hfind] at hw
          | some tr =>
            by_cases hst : (tr.status == TrackStatus.complete) = true
            · have ht : tr = t := by
                simpa [hookGetTrack, herr, hfind, hst] using hw
              subst ht
              simpa using hst
            · simp [hookGetTrack, herr, hfind, hst] at hw
    · intro hcnone herr hfind hst
      simp [hookGetTrack, hcnone, herr, hfind, hst]

/-- C9: `getCachedTrack` returns the stored entry when it is present with
`cached_at` no more than 24 hours in the past; when present but older than 24h
it removes the entry and returns not-found; when absent it returns not-found;
and in every case its effects are AsyncStorage accesses only — it never calls
the remote service.  The last conjunct ties the code's expiry predicate to
"more than 24 hours in the past". -/
theorem getCachedTrack_spec (now : Int) (trackId : String) (stored : StoreValue) :
    (∀ c, stored = .okValue c → isCacheExpired now c.cached_at = false
        → getCachedTrack now trackId stored
            = (some c, [.storeGetItem (getCacheKey trackId)]))
    ∧ (∀ c, stored = .okValue c → isCacheExpired now c.cached_at = true
        → (getCachedTrack now trackId stored).1 = none
          ∧ CacheAccess.storeRemoveItem (getCacheKey trackId)
              ∈ (getCachedTrack now trackId stored).2)
    ∧ (stored = .nullValue
        → getCachedTrack now trackId stored
            = (none, [.storeGetItem (getCacheKey trackId)]))
    ∧ CacheAccess.remoteFetch ∉ (getCachedTrack now trackId stored).2
    ∧ (∀ cachedAt : Int,
        isCacheExpired now cachedAt = true
          ↔ CACHE_EXPIRY_HOURS * 60 * 60 * 1000 < now - cachedAt) := by
  refine ⟨?_, ?_, ?_, ?_, ?_⟩
  · intro c hc hexp
    subst hc
    simp [getCachedTrack, hexp]
  · intro c hc hexp
    subst hc
    simp [getCachedTrack, hexp]
  · intro hc
    subst hc
    simp [getCachedTrack]
  · cases stored with
    | nullValue => simp [getCachedTrack]
    | badJson => simp [getCachedTrack]
    | okValue c =>
      by_cases hexp : isCacheExpired now c.cached_at = true
      · simp [getCachedTrack, hexp]
      · simp [getCachedTrack, hexp]
  · intro cachedAt
    simp only [isCacheExpired, decide_eq_true_eq]
    omega

/-- C9 witness: the expired-entry branch evaluated on a concrete store entry
25 hours old. -/
theorem getCachedTrack_spec_witness :
    (getCachedTrack (90000000 + 800) "a" (.okValue cachedA)).1 = none
    ∧ CacheAccess.storeRemoveItem (getCacheKey "a")
        ∈ (getCachedTrack (90000000 + 800) "a" (.okValue cachedA)).2 :=
  (getCachedTrack_spec (90000000 + 800) "a" (.okValue cachedA)).2.1 cachedA rfl (by decide)

lemma sorted_getLast_le :
    ∀ (l : List CachedTrack), List.Sorted byNewest l → ∀ (hne : l ≠ []),
      ∀ x ∈ l, (l.getLast hne).cached_at ≤ x.cached_at := by
  intro l
  induction l with
  | nil => intro _ hne; exact absurd rfl hne
  | cons a rest ih =>
    intro h hne x hx
    cases rest with
    | nil =>
      rcases List.mem_singleton.mp hx with rfl
      exact le_refl _
    | cons b rest2 =>
      have hgl : (a :: b :: rest2).getLast hne
          = (b :: rest2).getLast (by simp) := List.getLast_cons (by simp)
      rcases List.mem_cons.mp hx with rfl | hx2
      · have hmem : (b :: rest2).getLast (by simp) ∈ b :: rest2 :=
          List.getLast_mem _
        have := (List.sorted_cons.mp h).1 _ hmem
        rw [hgl]
        exact this
      · rw [hgl]
        exact ih (List.sorted_cons.mp h).2 (by simp) x hx2

/-- C7: with the in-memory list sorted newest-first and the new entry's write
timestamp at least as recent as every cached one, `cacheTrack`'s list update
keeps at most `maxCachedTracks` entries, places the new entry at the front,
preserves the newest-first order, and never leaves a second entry with the new
track's remote id.  When the id is new and the list is full, exactly the last
entry — the one with the oldest `cached_at` — is evicted; when the id is
already present, the prior entry is dropped and the new one moves to the
front without eviction. -/
theorem cacheTrack_retention (now : Int) (localId : String) (track : SunoTrack)
    (maxCachedTracks : Nat) (prev : List CachedTrack)
    (hsorted : List.Sorted byNewest prev)
    (hfresh : ∀ x ∈ prev, x.cached_at ≤ now) :
    (cacheTrack now localId track maxCachedTracks prev).length ≤ maxCachedTracks
    ∧ (0 < maxCachedTracks →
        (cacheTrack now localId track maxCachedTracks prev).head?
          = some (mkCachedTrack now localId track))
    ∧ List.Sorted byNewest (cacheTrack now localId track maxCachedTracks prev)
    ∧ (∀ x ∈ cacheTrack now localId track maxCachedTracks prev,
        x.id = track.id → x = mkCachedTrack now localId track)
    ∧ (∀ hne : prev ≠ [], ∀ x ∈ prev, (prev.getLast hne).cached_at ≤ x.cached_at)
    ∧ (track.id ∉ prev.map (fun x => x.id) → prev.length = maxCachedTracks
        → 0 < maxCachedTracks
        → cacheTrack now localId track maxCachedTracks prev
            = mkCachedTrack now localId track :: prev.dropLast)
    ∧ (track.id ∈ prev.map (fun x => x.id) → prev.length ≤ maxCachedTracks
        → cacheTrack now localId track maxCachedTracks prev
            = mkCachedTrack now localId track
                :: prev.filter (fun t => t.id != track.id)) := by
  refine ⟨List.length_take_le _ _, ?_, ?_, ?_, sorted_getLast_le prev hsorted, ?_, ?_⟩
  · intro hpos
    obtain ⟨m, rfl⟩ := Nat.exists_eq_succ_of_ne_zero (Nat.pos_iff_ne_zero.mp hpos)
    simp [cacheTrack, List.take_succ_cons]
  · have hsf : List.Sorted byNewest
        (mkCachedTrack now localId track :: prev.filter fun t => t.id != track.id) := by
      refine List.sorted_cons.mpr ⟨?_, hsorted.filter _⟩
      intro b hb
      exact hfresh b (List.mem_of_mem_filter hb)
    exact hsf.sublist (List.take_sublist _ _)
  · intro x hx hid
    have hx2 := (List.take_sublist _ _).subset hx
    rcases List.mem_cons.mp hx2 with rfl | hxf
    · rfl
    · have := List.of_mem_filter hxf
      simp only [bne_iff_ne, ne_eq] at this
      exact absurd hid this
  · intro hnotin hlen hpos
    have hfe : prev.filter (fun t => t.id != track.id) = prev := by
      refine List.filter_eq_self.mpr ?_
      intro a ha
      simp only [bne_iff_ne, ne_eq, decide_eq_true_eq]
      intro hcon
      exact hnotin (List.mem_map.mpr ⟨a, ha, hcon⟩)
    rw [cacheTrack, hfe]
    obtain ⟨m, hm⟩ := Nat.exists_eq_succ_of_ne_zero (Nat.pos_iff_ne_zero.mp hpos)
    subst hm
    rw [List.take_succ_cons]
    congr 1
    have hm2 : m = prev.length - 1 := by omega
    rw [hm2, (List.dropLast_eq_take prev).symm]
  · intro hin hlen
    have hex : ∃ x ∈ prev, ¬ (x.id != track.id) = true := by
      obtain ⟨x, hx, hid⟩ := List.mem_map.mp hin
      exact ⟨x, hx, by simp [hid]⟩
    have hlt : (prev.filter fun t => t.id != track.id).length < prev.length :=
      List.length_filter_lt_length_iff_exists.mpr hex
    refine List.take_of_length_le ?_
    simp only [List.length_cons]
    omega

/-- C7 witness: a full two-entry cache, sorted newest-first; putting a track
with a new remote id evicts exactly the last (oldest-`cached_at`) entry. -/
theorem cacheTrack_retention_witness :
    cacheTrack 1000 "local-n" trackNew 2 prevW
      = mkCachedTrack 1000 "local-n" trackNew :: prevW.dropLast :=
  (cacheTrack_retention 1000 "local-n" trackNew 2 prevW (by decide)
    (by decide)).2.2.2.2.2.1 (by decide) (by decide) (by decide)

lemma refreshScan_valid (now : Int) :
    ∀ (store : List (String × StoreValue)), ∀ c ∈ (refreshScan now store).1,
      isCacheExpired now c.cached_at = false
        ∧ ∃ k, (k, StoreValue.okValue c) ∈ store := by
  intro store
  induction store with
  | nil => simp [refreshScan]
  | cons kv rest ih =>
    obtain ⟨k2, v⟩ := kv
    intro c hc
    cases v with
    | nullValue =>
      obtain ⟨h1, kk, hk⟩ := ih c (by simpa [refreshScan] using hc)
      exact ⟨h1, kk, List.mem_cons_of_mem _ hk⟩
    | badJson =>
      obtain ⟨h1, kk, hk⟩ := ih c (by simpa [refreshScan] using hc)
      exact ⟨h1, kk, List.mem_cons_of_mem _ hk⟩
    | okValue ct =>
      by_cases hexp : isCacheExpired now ct.cached_at = true
      · obtain ⟨h1, kk, hk⟩ := ih c (by simpa [refreshScan, hexp] using hc)
        exact ⟨h1, kk, List.mem_cons_of_mem _ hk⟩
      · have hc2 : c = ct ∨ c ∈ (refreshScan now rest).1 := by
          simpa [refreshScan, hexp] using hc
        rcases hc2 with rfl | hc3
        · exact ⟨by simpa using hexp, k2, List.mem_cons_self _ _⟩
        · obtain ⟨h1, kk, hk⟩ := ih c hc3
          exact ⟨h1, kk, List.mem_cons_of_mem _ hk⟩

lemma refreshScan_deleted (now : Int) :
    ∀ (store : List (String × StoreValue)) (k : String),
      k ∈ (refreshScan now store).2
        ↔ ((k, StoreValue.badJson) ∈ store
            ∨ ∃ c, (k, StoreValue.okValue c) ∈ store
                ∧ isCacheExpired now c.cached_at = true) := by
  intro store
  induction store with
  | nil => simp [refreshScan]
  | cons kv rest ih =>
    obtain ⟨k2, v⟩ := kv
    intro k
    cases v with
    | nullValue => simp [refreshScan, ih k, List.mem_cons]
    | badJson =>
      simp [refreshScan, ih k, List.mem_cons]
      tauto
    | okValue ct =>
      by_cases hexp : isCacheExpired now ct.cached_at = true
      · have hstep : (refreshScan now ((k2, StoreValue.okValue ct) :: rest)).2
            = k2 :: (refreshScan now rest).2 := by
          simp [refreshScan, hexp]
        rw [hstep]
        constructor
        · intro hk
          rcases List.mem_cons.mp hk with rfl | hk2
          · exact Or.inr ⟨ct, List.mem_cons_self _ _, hexp⟩
          · rcases (ih k).mp hk2 with hb | ⟨c, hc, hce⟩
            · exact Or.inl (List.mem_cons_of_mem _ hb)
            · exact Or.inr ⟨c, List.mem_cons_of_mem _ hc, hce⟩
        · intro h
          rcases h with hb | ⟨c, hc, hce⟩
          · rcases List.mem_cons.mp hb with heq | hb2
            · exact absurd heq (by simp)
            · exact List.mem_cons_of_mem _ ((ih k).mpr (Or.inl hb2))
          · rcases List.mem_cons.mp hc with heq | hc2
            · exact List.mem_cons.mpr (Or.inl (congrArg Prod.fst heq))
            · exact List.mem_cons_of_mem _ ((ih k).mpr (Or.inr ⟨c, hc2, hce⟩))
      · have hstep : (refreshScan now ((k2, StoreValue.okValue ct) :: rest)).2
            = (refreshScan now rest).2 := by
          simp [refreshScan, hexp]
        rw [hstep, ih k]
        constructor
        · rintro (hb | ⟨c, hc, hce⟩)
          · exact Or.inl (List.mem_cons_of_mem _ hb)
          · exact Or.inr ⟨c, List.mem_cons_of_mem _ hc, hce⟩
        · rintro (hb | ⟨c, hc, hce⟩)
          · rcases List.mem_cons.mp hb with heq | hb2
            · exact absurd heq (by simp)
            · exact Or.inl hb2
          · rcases List.mem_cons.mp hc with heq | hc2
            · have hct : c = ct := by
                have hsnd := congrArg Prod.snd heq
                simpa using hsnd
              subst hct
              exact absurd hce hexp
            · exact Or.inr ⟨c, hc2, hce⟩

/-- C8: for every backing-store contents, `refreshCachedTracks` produces at
most `maxCachedTracks` entries, sorted by `cached_at` descending, all
unexpired and all read from the store; and it deletes exactly the keys
holding an unparseable entry or an expired entry (malformed entries are
treated like expired ones: deleted and skipped). -/
theorem refreshCachedTracks_spec (now : Int) (maxCachedTracks : Nat)
    (store : List (String × StoreValue)) :
    (refreshCachedTracks now maxCachedTracks store).1.length ≤ maxCachedTracks
    ∧ List.Sorted byNewest (refreshCachedTracks now maxCachedTracks store).1
    ∧ (∀ c ∈ (refreshCachedTracks now maxCachedTracks store).1,
        isCacheExpired now c.cached_at = false
          ∧ ∃ k, (k, StoreValue.okValue c) ∈ store)
    ∧ (∀ k, k ∈ (refreshCachedTracks now maxCachedTracks store).2
        ↔ ((k, StoreValue.badJson) ∈ store
            ∨ ∃ c, (k, StoreValue.okValue c) ∈ store
                ∧ isCacheExpired now c.cached_at = true)) := by
  refine ⟨List.length_take_le _ _, ?_, ?_, ?_⟩
  · exact (List.sorted_insertionSort byNewest _).sublist (List.take_sublist _ _)
  · intro c hc
    have hc2 : c ∈ (refreshScan now store).1.insertionSort byNewest :=
      (List.take_sublist _ _).subset hc
    exact refreshScan_valid now store c
      ((List.perm_insertionSort byNewest _).mem_iff.mp hc2)
  · intro k
    exact refreshScan_deleted now store k
